import Mathlib

/-!
Verification of the capsat_watcher beacon pipeline (capsat_watcher.py)
against its natural-language specification.

Shallow embedding notes:
* Bytes are `Nat` values below 256; multi-byte fields are little-endian,
  exactly as the struct format strings `<H`, `<B`, `<I`, `<f` prescribe.
* `<f` (float32) values are modelled by their 32-bit little-endian bit
  pattern as a `Nat`; `struct.unpack('<f', b)` is determined by those
  bits, so byte-level round-trip and ordering facts are unaffected.
* `struct.unpack(t, b)` returns a 1-element tuple; we model the tuple as
  a one-element `List Nat` and never unwrap it, mirroring the source.
* The source declares `BEACON_FORMAT` with braces, i.e. as a Python
  `set`.  Iterating a set visits elements in a hash-dependent order
  that need not be (and with string hash randomization almost never is)
  the declaration order.  We therefore keep the declaration-order list
  `BEACON_FORMAT_decl` and parameterize the decode/upload loops by an
  iteration order `order`, constrained to be a permutation of the
  declared elements where a claim needs it.
-/

/-- The struct primitive formats that appear in BEACON_FORMAT. -/
inductive PrimFmt where
  | u8
  | u16
  | u32
  | f32
  deriving DecidableEq

/-- Size in bytes of one struct format, as struct.calcsize computes it. -/
def calcsize : PrimFmt → Nat
  | .u8 => 1
  | .u16 => 2
  | .u32 => 4
  | .f32 => 4

/-- One entry of BEACON_FORMAT: (RecordSource name, data type, data size). -/
structure FieldSpec where
  name : String
  fmt : PrimFmt
  size : Nat
  deriving DecidableEq

def fsSync : FieldSpec := ⟨"sync", .u16, 2⟩

def fsHost : FieldSpec := ⟨"host_id", .u8, 1⟩

/-- The 22 entries of BEACON_FORMAT after sync and host_id, in the order
they are written in the source literal. -/
def beaconTail : List FieldSpec :=
  [⟨"system_time", .u32, 4⟩,
   ⟨"custom_data0", .u8, 1⟩,
   ⟨"custom_data1", .u8, 1⟩,
   ⟨"custom_data2", .u8, 1⟩,
   ⟨"custom_data3", .u8, 1⟩,
   ⟨"quaternions0", .f32, 4⟩,
   ⟨"quaternions1", .f32, 4⟩,
   ⟨"quaternions2", .f32, 4⟩,
   ⟨"quaternions3", .f32, 4⟩,
   ⟨"rates0", .f32, 4⟩,
   ⟨"rates1", .f32, 4⟩,
   ⟨"rates2", .f32, 4⟩,
   ⟨"illumination_state", .u16, 2⟩,
   ⟨"algorithm", .u8, 1⟩,
   ⟨"battery_voltage0", .f32, 4⟩,
   ⟨"battery_voltage1", .f32, 4⟩,
   ⟨"battery_voltage2", .f32, 4⟩,
   ⟨"battery_voltage3", .f32, 4⟩,
   ⟨"battery_temperature0", .f32, 4⟩,
   ⟨"battery_temperature1", .f32, 4⟩,
   ⟨"battery_temperature2", .f32, 4⟩,
   ⟨"battery_temperature3", .f32, 4⟩]

/-- The elements of the source's BEACON_FORMAT set, listed in the order
they are written in the source file (the declaration order). -/
def BEACON_FORMAT_decl : List FieldSpec := fsSync :: fsHost :: beaconTail

/-- One possible iteration order of the BEACON_FORMAT set: the same
elements with sync and host_id visited in the opposite order. -/
def swappedOrder : List FieldSpec := fsHost :: fsSync :: beaconTail

/-- Sum of the declared byte widths of a field list. -/
def totalWidth (l : List FieldSpec) : Nat := (l.map FieldSpec.size).sum

abbrev Byte := Nat

/-- Little-endian value of a byte string, as struct's <H, <B, <I read it
(and the bit pattern that <f reads). -/
def leVal (bs : List Byte) : Nat := bs.foldr (fun b acc => b + 256 * acc) 0

/-- Model of struct.unpack(t, buf): errors (none) unless the buffer has
exactly calcsize t bytes, and otherwise returns the 1-element tuple of
the little-endian value, modelled as a one-element list. -/
def unpackTuple (f : PrimFmt) (bs : List Byte) : Option (List Nat) :=
  if bs.length = calcsize f then some [leVal bs] else none

/-- The unpack loop of parse_beacon: for each (rs, t, s) in iteration
order, data(rs) = unpack(t, f.read(s)).  Each f.read(s) hands over the
next s bytes of the file (fewer if the file runs out, in which case
unpack raises struct.error, modelled as none). -/
def parseFields : List FieldSpec → List Byte → Option (List (String × List Nat))
  | [], _ => some []
  | f :: rest, bytes =>
    match unpackTuple f.fmt (bytes.take f.size) with
    | none => none
    | some v =>
      match parseFields rest (bytes.drop f.size) with
      | none => none
      | some tl => some ((f.name, v) :: tl)

/-- A naive datetime as datetime.datetime holds it after strptime. -/
structure DateTime where
  year : Nat
  month : Nat
  day : Nat
  hour : Nat
  minute : Nat
  second : Nat
  deriving DecidableEq

/-- The datetime together with its tzinfo tag: tzIsUtc is true exactly
when tzinfo=datetime.timezone.utc has been attached. -/
structure TaggedDateTime where
  naive : DateTime
  tzIsUtc : Bool
  deriving DecidableEq

/-- Numeric value of a decimal digit character, none otherwise. -/
def digitVal (c : Char) : Option Nat :=
  if '0' ≤ c ∧ c ≤ '9' then some (c.toNat - '0'.toNat) else none

/-- A matcher consumes a fixed shape from the input and yields the
numeric value plus the rest, mirroring one regex alternative. -/
abbrev Matcher := List Char → Option (Nat × List Char)

/-- Two-digit regex alternative with a predicate on each digit. -/
def match2 (p1 p2 : Nat → Bool) : Matcher
  | c1 :: c2 :: rest =>
    match digitVal c1, digitVal c2 with
    | some d1, some d2 => if p1 d1 && p2 d2 then some (10 * d1 + d2, rest) else none
    | _, _ => none
  | _ => none

/-- One-digit regex alternative with a predicate on the digit. -/
def match1 (p : Nat → Bool) : Matcher
  | c :: rest =>
    match digitVal c with
    | some d => if p d then some (d, rest) else none
    | none => none
  | [] => none

/-- Exactly four digits, as the %Y regex group demands. -/
def match4 : Matcher
  | c1 :: c2 :: c3 :: c4 :: rest =>
    match digitVal c1, digitVal c2, digitVal c3, digitVal c4 with
    | some d1, some d2, some d3, some d4 =>
      some (1000 * d1 + 100 * d2 + 10 * d3 + d4, rest)
    | _, _, _, _ => none
  | _ => none

/-- Ordered alternation with continuation: try each alternative in regex
order, committing to the first one under which the rest of the pattern
also matches (regex backtracking). -/
def firstMatch (ms : List Matcher) (k : Nat → List Char → Option DateTime)
    (s : List Char) : Option DateTime :=
  match ms with
  | [] => none
  | m :: rest =>
    match m s with
    | some (v, r) =>
      match k v r with
      | some out => some out
      | none => firstMatch rest k s
    | none => firstMatch rest k s

/-- A literal character of the format string.  strptime compiles its
regex with IGNORECASE, so the comparison is case-insensitive. -/
def litc (c : Char) (k : List Char → Option DateTime) : List Char → Option DateTime
  | x :: rest => if x.toLower = c then k rest else none
  | [] => none

/-- CPython regex for %m: 1[0-2] or 0[1-9] or [1-9]. -/
def monthAlts : List Matcher :=
  [match2 (fun d => d == 1) (fun d => d ≤ 2),
   match2 (fun d => d == 0) (fun d => 1 ≤ d),
   match1 (fun d => 1 ≤ d)]

/-- CPython regex for %d: 3[01] or [12]\d or 0[1-9] or [1-9]. -/
def dayAlts : List Matcher :=
  [match2 (fun d => d == 3) (fun d => d ≤ 1),
   match2 (fun d => d == 1 || d == 2) (fun _ => true),
   match2 (fun d => d == 0) (fun d => 1 ≤ d),
   match1 (fun d => 1 ≤ d)]

/-- CPython regex for %H: 2[0-3] or [0-1]\d or \d. -/
def hourAlts : List Matcher :=
  [match2 (fun d => d == 2) (fun d => d ≤ 3),
   match2 (fun d => d ≤ 1) (fun _ => true),
   match1 (fun _ => true)]

/-- CPython regex for %M: [0-5]\d or \d. -/
def minuteAlts : List Matcher :=
  [match2 (fun d => d ≤ 5) (fun _ => true),
   match1 (fun _ => true)]

/-- CPython regex for %S: 6[0-1] or [0-5]\d or \d. -/
def secondAlts : List Matcher :=
  [match2 (fun d => d == 6) (fun d => d ≤ 1),
   match2 (fun d => d ≤ 5) (fun _ => true),
   match1 (fun _ => true)]

/-- Gregorian leap-year rule used by datetime. -/
def isLeap (y : Nat) : Bool := y % 4 == 0 && (y % 100 != 0 || y % 400 == 0)

/-- Days in a month, as datetime validates the day field. -/
def daysInMonth (y m : Nat) : Nat :=
  if m == 2 then (if isLeap y then 29 else 28)
  else if m == 4 || m == 6 || m == 9 || m == 11 then 30
  else 31

/-- The datetime.datetime constructor's validation, which strptime runs
on the matched groups: MINYEAR 1, month and day in calendar range, hour
below 24, minute and second below 60 (the regex can hand over leap
seconds 60 and 61, which the constructor rejects). -/
def mkDatetime (y mo d h mi s : Nat) : Option DateTime :=
  if 1 ≤ y ∧ 1 ≤ mo ∧ mo ≤ 12 ∧ 1 ≤ d ∧ d ≤ daysInMonth y mo ∧
     h ≤ 23 ∧ mi ≤ 59 ∧ s ≤ 59
  then some ⟨y, mo, d, h, mi, s⟩ else none

/-- Model of datetime.datetime.strptime(name, "beacon_%Y-%m-%d_%H:%M:%S"):
the compiled CPython regex (with its per-directive alternations and
IGNORECASE literals) matched against the whole string, followed by the
datetime constructor's validation.  none models the ValueError raise.
Validation failure is placed inside the continuation; for this format
any regex re-match after a failed validation leaves a digit where a
separator or the end of the string is required, so the result agrees
with CPython's match-then-validate order. -/
def strptimeBeacon (s : List Char) : Option DateTime :=
  match s with
  | b :: e1 :: a :: c :: o :: n1 :: u :: r0 =>
    if b.toLower = 'b' ∧ e1.toLower = 'e' ∧ a.toLower = 'a' ∧ c.toLower = 'c' ∧
       o.toLower = 'o' ∧ n1.toLower = 'n' ∧ u = '_' then
      firstMatch [match4]
        (fun y r1 => litc '-'
          (firstMatch monthAlts
            (fun mo r2 => litc '-'
              (firstMatch dayAlts
                (fun d r3 => litc '_'
                  (firstMatch hourAlts
                    (fun h r4 => litc ':'
                      (firstMatch minuteAlts
                        (fun mi r5 => litc ':'
                          (firstMatch secondAlts
                            (fun sec r6 =>
                              if r6.isEmpty then mkDatetime y mo d h mi sec
                              else none))
                          r5))
                      r4))
                  r3))
              r2))
          r1)
        r0
    else none
  | _ => none

/-- parse_beacon's date handling: strptime on the base name, then
date.replace(tzinfo=datetime.timezone.utc). -/
def parseBeaconDate (name : List Char) : Option TaggedDateTime :=
  (strptimeBeacon name).map (fun d => ⟨d, true⟩)

/-- Modelled from the spec: the strict fixed pattern
beacon_ then 4-digit year - 2-digit month - 2-digit day _ 2-digit hour
: 2-digit minute : 2-digit second, exactly as the spec's words describe
it (every field zero-padded to its stated width). -/
def specStrictPattern (s : List Char) : Bool :=
  match s with
  | ['b', 'e', 'a', 'c', 'o', 'n', '_', y1, y2, y3, y4, '-', m1, m2, '-',
     d1, d2, '_', h1, h2, ':', n1, n2, ':', s1, s2] =>
    [y1, y2, y3, y4, m1, m2, d1, d2, h1, h2, n1, n2, s1, s2].all Char.isDigit
  | _ => false

/-- The characters of BEACON_FILE_PREFIX. -/
def beaconMarker : List Char := ['b', 'e', 'a', 'c', 'o', 'n', '_']

/-- The name filter shared by the bootstrap scan (glob 'beacon_*') and
the watchdog handler (name.startswith(BEACON_FILE_PREFIX)); both are
case-sensitive. -/
def hasBeaconPfx (name : List Char) : Bool := beaconMarker.isPrefixOf name

/-- The rename target used after a fully successful upload:
parent.joinpath('processed_' + name), i.e. the same directory with the
processed marker prepended to the original name. -/
def processedName (name : List Char) : List Char :=
  ['p', 'r', 'o', 'c', 'e', 's', 's', 'e', 'd', '_'] ++ name

/-- One Record POSTed to target/api/objects/records/: form fields
created_at (the ISO string of the tagged datetime is determined by it),
value (the tuple from unpack, never unwrapped) and source. -/
structure Record where
  created_at : TaggedDateTime
  value : List Nat
  source : String
  deriving DecidableEq

/-- What one requests.post call can produce: a raised transport
exception (requests.exceptions.ConnectionError and kin), or a response
with its ok flag and body content. -/
inductive PostResult where
  | raise
  | resp (ok : Bool) (content : List Byte)
  deriving DecidableEq

/-- How the upload loop of upload_beacon ends. -/
inductive UploadStatus where
  | success
  | rejected (body : List Byte)
  | transportRaise
  deriving DecidableEq

def mkRec (td : TaggedDateTime) (p : String × List Nat) : Record :=
  ⟨td, p.2, p.1⟩

/-- The per-field upload loop of upload_beacon.  resp i is the outcome
of the i-th POST of this beacon.  Returns the Records whose POSTs
completed with a response, in the order they were issued, and the way
the loop ended: a non-ok response stops the loop (error.html branch), a
raised transport error propagates, and on all-ok the loop finishes. -/
def uploadOps (td : TaggedDateTime) (resp : Nat → PostResult) :
    List (String × List Nat) → Nat → List Record × UploadStatus
  | [], _ => ([], .success)
  | p :: rest, i =>
    match resp i with
    | .raise => ([], .transportRaise)
    | .resp ok content =>
      if ok then
        ((mkRec td p) :: (uploadOps td resp rest (i + 1)).1,
         (uploadOps td resp rest (i + 1)).2)
      else ([mkRec td p], .rejected content)

/-- Observable actions on files and the log that the claims talk about. -/
inductive FileOp where
  | read (name : List Char)
  | logSizeAnomaly (got : Nat)
  | post (r : Record)
  | writeErr (content : List Byte)
  | renameOp (old new : List Char)
  deriving DecidableEq

/-- An uncaught Python exception terminating the current control flow. -/
inductive Crash where
  | malformedFilename (name : List Char)
  | structError (name : List Char)
  | transport (name : List Char)
  | schemaMismatch (got expected : List String)
  deriving DecidableEq

/-- parse_beacon's actions between strptime and the unpack loop: open
and peek the file, and log the size anomaly when the length is not 74.
(peek returns the whole file for files within the buffer size; we model
the peeked length as the file length.) -/
def preOps (name : List Char) (len : Nat) : List FileOp :=
  if len = 74 then [.read name] else [.read name, .logSizeAnomaly len]

/-- upload_beacon on one beacon file: parse_beacon (strptime, read,
size check, unpack loop in iteration order), then one POST per decoded
field; a non-ok response writes the raw body to error.html (opened with
mode wb, so any previous content is overwritten) and returns; after all
POSTs succeed the file is renamed to its processed name.  The second
component is the uncaught exception, if one escapes upload_beacon. -/
def runBeacon (order : List FieldSpec) (resp : Nat → PostResult)
    (name : List Char) (bytes : List Byte) : List FileOp × Option Crash :=
  match parseBeaconDate name with
  | none => ([], some (.malformedFilename name))
  | some td =>
    match parseFields order bytes with
    | none => (preOps name bytes.length, some (.structError name))
    | some data =>
      match uploadOps td resp data 0 with
      | (posts, .transportRaise) =>
        (preOps name bytes.length ++ posts.map FileOp.post, some (.transport name))
      | (posts, .rejected body) =>
        (preOps name bytes.length ++ posts.map FileOp.post ++ [.writeErr body], none)
      | (posts, .success) =>
        (preOps name bytes.length ++ posts.map FileOp.post ++
          [.renameOp name (processedName name)], none)

/-- Handler.on_created: ignore paths whose base name lacks the beacon
marker, otherwise run upload_beacon on them. -/
def on_created (order : List FieldSpec) (resp : Nat → PostResult)
    (name : List Char) (bytes : List Byte) : List FileOp × Option Crash :=
  if hasBeaconPfx name then runBeacon order resp name bytes else ([], none)

/-- set(a) == set(b) for string lists. -/
def sameSet (a b : List String) : Bool :=
  a.all (fun x => b.contains x) && b.all (fun x => a.contains x)

/-- The names the startup check expects: one per BEACON_FORMAT entry
(as a set, the iteration order of the comprehension is irrelevant). -/
def expected_record_sources : List String := BEACON_FORMAT_decl.map FieldSpec.name

/-- The bootstrap loop of main: process each discovered beacon file in
directory order; an exception escaping upload_beacon terminates the
loop.  respFor k is the response environment of the k-th file. -/
def mainLoop (order : List FieldSpec) (respFor : Nat → Nat → PostResult) :
    List (List Char × List Byte) → Nat → List FileOp × Option Crash
  | [], _ => ([], none)
  | e :: rest, k =>
    match runBeacon order (respFor k) e.1 e.2 with
    | (ops, some c) => (ops, some c)
    | (ops, none) =>
      match mainLoop order respFor rest (k + 1) with
      | (ops2, c2) => (ops ++ ops2, c2)

/-- main up to the steady-state watch: check_database first (raising on
a RecordSource set mismatch before anything touches a file), then the
bootstrap scan over the names carrying the beacon marker. -/
def mainRun (remote : List String) (order : List FieldSpec)
    (respFor : Nat → Nat → PostResult) (entries : List (List Char × List Byte)) :
    List FileOp × Option Crash :=
  if sameSet remote expected_record_sources then
    mainLoop order respFor (entries.filter (fun e => hasBeaconPfx e.1)) 0
  else ([], some (.schemaMismatch remote expected_record_sources))

/-- Little-endian byte string of a value, for the synthetic encoder. -/
def leBytes : Nat → Nat → List Byte
  | 0, _ => []
  | w + 1, v => (v % 256) :: leBytes w (v / 256)

/-- Modelled from the spec: the synthetic encoder of the round-trip
property, laying known field values out as a 74-byte little-endian
buffer in MeasurementSpec declaration order, each field in its declared
byte width. -/
def encodeBeaconSpec (vals : List Nat) : List Byte :=
  ((BEACON_FORMAT_decl.zip vals).map (fun fv => leBytes fv.1.size fv.2)).flatten

/-- A demonstration beacon buffer: bytes 0, 1, ..., 73. -/
def demoBuf : List Byte := List.range 74

/-- Demonstration field values 1..24, one per declared field. -/
def demoVals : List Nat := List.range' 1 24

def canonicalName : List Char := "beacon_2021-10-19_14:30:00".data

def canonicalName2 : List Char := "beacon_2021-10-20_14:30:00".data

lemma swappedOrder_perm : swappedOrder.Perm BEACON_FORMAT_decl :=
  List.Perm.swap fsSync fsHost beaconTail

lemma totalWidth_nil : totalWidth [] = 0 := rfl

lemma totalWidth_cons (f : FieldSpec) (l : List FieldSpec) :
    totalWidth (f :: l) = f.size + totalWidth l := by
  simp [totalWidth]

lemma totalWidth_decl : totalWidth BEACON_FORMAT_decl = 74 := by decide

lemma totalWidth_perm (order : List FieldSpec) (h : order.Perm BEACON_FORMAT_decl) :
    totalWidth order = 74 := by
  have hs : (order.map FieldSpec.size).sum = (BEACON_FORMAT_decl.map FieldSpec.size).sum :=
    (h.map FieldSpec.size).sum_eq
  simpa [totalWidth, totalWidth_decl] using hs.trans (by simpa [totalWidth] using totalWidth_decl)

lemma sizes_ok_decl : ∀ f ∈ BEACON_FORMAT_decl, f.size = calcsize f.fmt := by decide

lemma sizes_ok_perm (order : List FieldSpec) (h : order.Perm BEACON_FORMAT_decl) :
    ∀ f ∈ order, f.size = calcsize f.fmt :=
  fun f hf => sizes_ok_decl f (h.mem_iff.mp hf)

lemma sameSet_iff (a b : List String) :
    sameSet a b = true ↔ (∀ x, x ∈ a ↔ x ∈ b) := by
  simp only [sameSet, Bool.and_eq_true, List.all_eq_true, List.contains, List.elem_iff]
  constructor
  · rintro ⟨h1, h2⟩ x
    exact ⟨fun hx => h1 x hx, fun hx => h2 x hx⟩
  · intro h
    exact ⟨fun x hx => (h x).mp hx, fun x hx => (h x).mpr hx⟩

lemma uploadOps_ok (td : TaggedDateTime) (resp : Nat → PostResult) :
    ∀ (data : List (String × List Nat)) (i : Nat),
      (∀ j, j < data.length → ∃ c, resp (i + j) = .resp true c) →
      uploadOps td resp data i = (data.map (mkRec td), .success) := by
  intro data
  induction data with
  | nil => intro i _; simp [uploadOps]
  | cons p rest ih =>
    intro i h
    obtain ⟨c, hc⟩ := h 0 (by simp)
    rw [Nat.add_zero] at hc
    have hrest : ∀ j, j < rest.length → ∃ c, resp ((i + 1) + j) = .resp true c := by
      intro j hj
      have hidx : (i + 1) + j = i + (j + 1) := by omega
      rw [hidx]
      exact h (j + 1) (by simpa using Nat.succ_lt_succ hj)
    simp [uploadOps, hc, ih (i + 1) hrest]

lemma uploadOps_rej (td : TaggedDateTime) (resp : Nat → PostResult) :
    ∀ (data : List (String × List Nat)) (i N : Nat) (body : List Byte),
      0 < N → N ≤ data.length →
      (∀ j, j < N - 1 → ∃ c, resp (i + j) = .resp true c) →
      resp (i + (N - 1)) = .resp false body →
      uploadOps td resp data i = ((data.take N).map (mkRec td), .rejected body) := by
  intro data
  induction data with
  | nil => intro i N body hN hle _ _; simp at hle; omega
  | cons p rest ih =>
    intro i N body hN hle hok hbad
    match N, hN with
    | 1, _ =>
      rw [show (1 : Nat) - 1 = 0 from rfl, Nat.add_zero] at hbad
      simp [uploadOps, hbad]
    | (m + 2), _ =>
      obtain ⟨c, hc⟩ := hok 0 (by omega)
      rw [Nat.add_zero] at hc
      have hok2 : ∀ j, j < (m + 1) - 1 → ∃ c, resp ((i + 1) + j) = .resp true c := by
        intro j hj
        have hidx : (i + 1) + j = i + (j + 1) := by omega
        rw [hidx]
        exact hok (j + 1) (by omega)
      have hbad2 : resp ((i + 1) + ((m + 1) - 1)) = .resp false body := by
        have hidx : (i + 1) + ((m + 1) - 1) = i + ((m + 2) - 1) := by omega
        rw [hidx]; exact hbad
      have ihr := ih (i + 1) (m + 1) body (by omega) (by simpa using hle) hok2 hbad2
      simp [uploadOps, hc, ihr, List.take_succ_cons]

lemma uploadOps_raise (td : TaggedDateTime) (resp : Nat → PostResult) :
    ∀ (data : List (String × List Nat)) (i k : Nat),
      k < data.length →
      (∀ j, j < k → ∃ c, resp (i + j) = .resp true c) →
      resp (i + k) = .raise →
      uploadOps td resp data i = ((data.take k).map (mkRec td), .transportRaise) := by
  intro data
  induction data with
  | nil => intro i k hk _ _; simp at hk
  | cons p rest ih =>
    intro i k hk hok hraise
    match k with
    | 0 =>
      rw [Nat.add_zero] at hraise
      simp [uploadOps, hraise]
    | (m + 1) =>
      obtain ⟨c, hc⟩ := hok 0 (by omega)
      rw [Nat.add_zero] at hc
      have hok2 : ∀ j, j < m → ∃ c, resp ((i + 1) + j) = .resp true c := by
        intro j hj
        have hidx : (i + 1) + j = i + (j + 1) := by omega
        rw [hidx]
        exact hok (j + 1) (by omega)
      have hraise2 : resp ((i + 1) + m) = .raise := by
        have hidx : (i + 1) + m = i + (m + 1) := by omega
        rw [hidx]; exact hraise
      have ihr := ih (i + 1) m (by simpa using hk) hok2 hraise2
      simp [uploadOps, hc, ihr, List.take_succ_cons]

lemma uploadOps_take (td : TaggedDateTime) (resp : Nat → PostResult) :
    ∀ (data : List (String × List Nat)) (i : Nat),
      ∃ k, (uploadOps td resp data i).1 = (data.take k).map (mkRec td) := by
  intro data
  induction data with
  | nil => intro i; exact ⟨0, by simp [uploadOps]⟩
  | cons p rest ih =>
    intro i
    rcases hr : resp i with _ | ⟨ok, content⟩
    · exact ⟨0, by simp [uploadOps, hr]⟩
    · cases ok with
      | false => exact ⟨1, by simp [uploadOps, hr]⟩
      | true =>
        obtain ⟨k, hk⟩ := ih (i + 1)
        exact ⟨k + 1, by simp [uploadOps, hr, hk, List.take_succ_cons]⟩

lemma parseFields_size :
    ∀ (order : List FieldSpec) (bytes : List Byte),
      (∀ f ∈ order, f.size = calcsize f.fmt) →
      (totalWidth order ≤ bytes.length → ∃ data, parseFields order bytes = some data) ∧
      (bytes.length < totalWidth order → parseFields order bytes = none) := by
  intro order
  induction order with
  | nil =>
    intro bytes _
    exact ⟨fun _ => ⟨[], rfl⟩, fun hlt => by simp [totalWidth_nil] at hlt⟩
  | cons f rest ih =>
    intro bytes hs
    have hf : f.size = calcsize f.fmt := hs f (by simp)
    have hrest : ∀ g ∈ rest, g.size = calcsize g.fmt := fun g hg => hs g (by simp [hg])
    have ihr := ih (bytes.drop f.size) hrest
    rw [totalWidth_cons]
    constructor
    · intro hle
      have h1 : f.size ≤ bytes.length := by omega
      have hchunk : (bytes.take f.size).length = calcsize f.fmt := by
        rw [List.length_take, ← hf]; omega
      have hu : unpackTuple f.fmt (bytes.take f.size) = some [leVal (bytes.take f.size)] := by
        simp [unpackTuple, hchunk]
      have hdrop : totalWidth rest ≤ (bytes.drop f.size).length := by
        rw [List.length_drop]; omega
      obtain ⟨data, hd⟩ := ihr.1 hdrop
      exact ⟨(f.name, [leVal (bytes.take f.size)]) :: data, by simp [parseFields, hu, hd]⟩
    · intro hlt
      by_cases h1 : f.size ≤ bytes.length
      · have hchunk : (bytes.take f.size).length = calcsize f.fmt := by
          rw [List.length_take, ← hf]; omega
        have hu : unpackTuple f.fmt (bytes.take f.size) = some [leVal (bytes.take f.size)] := by
          simp [unpackTuple, hchunk]
        have hdrop : (bytes.drop f.size).length < totalWidth rest := by
          rw [List.length_drop]; omega
        simp [parseFields, hu, ihr.2 hdrop]
      · have hne : (bytes.take f.size).length ≠ calcsize f.fmt := by
          rw [List.length_take, ← hf]; omega
        have hu : unpackTuple f.fmt (bytes.take f.size) = none := by
          simp only [unpackTuple]
          exact if_neg hne
        simp [parseFields, hu]

lemma parseFields_singleton :
    ∀ (order : List FieldSpec) (bytes : List Byte) (data : List (String × List Nat)),
      parseFields order bytes = some data → ∀ p ∈ data, ∃ x, p.2 = [x] := by
  intro order
  induction order with
  | nil =>
    intro bytes data h p hp
    simp [parseFields] at h
    subst h
    simp at hp
  | cons f rest ih =>
    intro bytes data h p hp
    rcases hu : unpackTuple f.fmt (bytes.take f.size) with _ | v
    · rw [parseFields, hu] at h; simp at h
    · rw [parseFields, hu] at h
      rcases hr : parseFields rest (bytes.drop f.size) with _ | tl
      · rw [hr] at h; simp at h
      · rw [hr] at h
        simp only [Option.some.injEq] at h
        subst h
        rcases List.mem_cons.mp hp with hp2 | hp2
        · subst hp2
          have hv : v = [leVal (bytes.take f.size)] := by
            simp only [unpackTuple] at hu
            by_cases hlen : (bytes.take f.size).length = calcsize f.fmt
            · rw [if_pos hlen] at hu; exact (Option.some.injEq _ _ ▸ hu).symm
            · rw [if_neg hlen] at hu; exact absurd hu (by simp)
          exact ⟨leVal (bytes.take f.size), by simp [hv]⟩
        · exact ih _ _ hr p hp2

lemma renameOp_not_mem_pre (name old new : List Char) (len : Nat) :
    FileOp.renameOp old new ∉ preOps name len := by
  simp only [preOps]
  split <;> simp

lemma renameOp_not_mem_posts (posts : List Record) (old new : List Char) :
    FileOp.renameOp old new ∉ posts.map FileOp.post := by
  simp [List.mem_map]

/-- A one-field iteration order, used to instantiate theorems whose
statements quantify over the order. -/
def orderOne : List FieldSpec := [fsSync]

/-- The tagged datetime parse_beacon produces for canonicalName. -/
def tdC : TaggedDateTime := ⟨⟨2021, 10, 19, 14, 30, 0⟩, true⟩

def respRejectAll : Nat → PostResult := fun _ => .resp false [101]

def respRaiseAll : Nat → PostResult := fun _ => .raise

def oneDigitName : List Char := "beacon_2021-1-19_14:30:00".data

/-- The spec's own schema-mismatch example set. -/
def remoteBad : List String := ["sync", "host_id"]

/-- C1: the claim says fields are decoded and uploaded in the fixed
declaration order of MeasurementSpec.  The source iterates
BEACON_FORMAT, which is declared with braces and hence is a Python set,
so the loop order is a hash-dependent iteration order: swappedOrder is
such an order (a permutation of the declared elements), and under it the
sequentially-consumed bytes land in different fields than under the
declaration order, and the upload order differs from declaration order. -/
theorem c1_set_iteration_order_bug :
    swappedOrder.Perm BEACON_FORMAT_decl ∧
    parseFields swappedOrder demoBuf ≠ parseFields BEACON_FORMAT_decl demoBuf ∧
    (parseFields swappedOrder demoBuf).map (fun d => d.map Prod.fst) ≠
      some (BEACON_FORMAT_decl.map FieldSpec.name) :=
  ⟨swappedOrder_perm, by decide, by decide⟩

/-- C2: the claim says encode-then-decode round-trips for all 24 fields.
Under the declaration order it does (third conjunct), but the decode
loop iterates the BEACON_FORMAT set, and under the legal iteration order
swappedOrder the decoded mapping differs from the encoded values: the
host_id slot receives the low byte of sync's encoding (value 1) instead
of the encoded host_id value 2. -/
theorem c2_roundtrip_bug :
    swappedOrder.Perm BEACON_FORMAT_decl ∧
    (encodeBeaconSpec demoVals).length = 74 ∧
    parseFields BEACON_FORMAT_decl (encodeBeaconSpec demoVals) =
      some ((BEACON_FORMAT_decl.zip demoVals).map (fun fv => (fv.1.name, [fv.2]))) ∧
    parseFields swappedOrder (encodeBeaconSpec demoVals) ≠
      some ((BEACON_FORMAT_decl.zip demoVals).map (fun fv => (fv.1.name, [fv.2]))) ∧
    (parseFields swappedOrder (encodeBeaconSpec demoVals)).map
      (fun d => List.lookup "host_id" d) ≠ some (some [2]) :=
  ⟨swappedOrder_perm, by decide, by decide, by decide, by decide⟩

/-- C3: if the Nth POST of a beacon gets a non-success response, the
requests issued are exactly the first N (each once, in order), the raw
body is written to error.html, no rename happens and no exception
escapes; and only when every request succeeds does upload_beacon rename
the file to its processed name. -/
theorem c3_partial_failure :
    ∀ (order : List FieldSpec) (resp : Nat → PostResult) (name : List Char)
      (bytes : List Byte) (td : TaggedDateTime) (data : List (String × List Nat))
      (N : Nat) (body : List Byte),
      parseBeaconDate name = some td →
      parseFields order bytes = some data →
      0 < N → N ≤ data.length →
      (∀ j, j < N - 1 → ∃ c, resp j = .resp true c) →
      resp (N - 1) = .resp false body →
      runBeacon order resp name bytes =
        (preOps name bytes.length ++ ((data.take N).map (mkRec td)).map FileOp.post ++
          [.writeErr body], none) ∧
      ∀ resp2 : Nat → PostResult,
        (∀ j, j < data.length → ∃ c, resp2 j = .resp true c) →
        runBeacon order resp2 name bytes =
          (preOps name bytes.length ++ (data.map (mkRec td)).map FileOp.post ++
            [.renameOp name (processedName name)], none) := by
  intro order resp name bytes td data N body hname hparse hN hle hok hbad
  have hrej := uploadOps_rej td resp data 0 N body hN hle
    (fun j hj => by simpa using hok j hj) (by simpa using hbad)
  constructor
  · simp [runBeacon, hname, hparse, hrej]
  · intro resp2 hok2
    have hsucc := uploadOps_ok td resp2 data 0 (fun j hj => by simpa using hok2 j hj)
    simp [runBeacon, hname, hparse, hsucc]

/-- C3 witness: a concrete beacon whose single POST is rejected with
body 104 produces exactly the read, size log, one post and the
error.html write and no crash; with an all-success responder the same
beacon ends with the rename to the processed name. -/
theorem c3_partial_failure_witness :
    runBeacon orderOne respRejectAll canonicalName [1, 0] =
      (preOps canonicalName (([1, 0] : List Byte).length) ++
        ((([("sync", [1])] : List (String × List Nat)).take 1).map (mkRec tdC)).map
          FileOp.post ++ [.writeErr [101]], none) ∧
    runBeacon orderOne (fun _ => PostResult.resp true []) canonicalName [1, 0] =
      (preOps canonicalName (([1, 0] : List Byte).length) ++
        (([("sync", [1])] : List (String × List Nat)).map (mkRec tdC)).map FileOp.post ++
        [.renameOp canonicalName (processedName canonicalName)], none) := by
  have h := c3_partial_failure orderOne respRejectAll canonicalName [1, 0] tdC
    [("sync", [1])] 1 [101] (by decide) (by decide) (by decide) (by decide)
    (fun j hj => absurd hj (Nat.not_lt_zero j)) (by decide)
  exact ⟨h.1, h.2 (fun _ => PostResult.resp true []) (fun j _ => ⟨[], rfl⟩)⟩

/-- C4: a successful upload renames the beacon, in the same directory,
to processed_ prepended to its original name: any rename op emitted by
upload_beacon has exactly that shape; and a name carrying the processed
marker never matches the beacon marker filter, so neither the bootstrap
scan (glob on the beacon marker) nor the watchdog on_created handler
selects it again. -/
theorem c4_processed_never_reselected :
    ∀ (order : List FieldSpec) (resp : Nat → PostResult) (name : List Char)
      (bytes : List Byte) (old new : List Char)
      (entries : List (List Char × List Byte)) (e : List Char × List Byte),
      (FileOp.renameOp old new ∈ (runBeacon order resp name bytes).1 →
        old = name ∧ new = processedName name) ∧
      hasBeaconPfx (processedName name) = false ∧
      on_created order resp (processedName name) bytes = ([], none) ∧
      (e ∈ entries.filter (fun x => hasBeaconPfx x.1) → e.1 ≠ processedName name) := by
  intro order resp name bytes old new entries e
  have hpfx : hasBeaconPfx (processedName name) = false := rfl
  refine ⟨?_, hpfx, ?_, ?_⟩
  · intro hmem
    rcases hd : parseBeaconDate name with _ | td
    · simp only [runBeacon, hd] at hmem
      simp at hmem
    · rcases hp : parseFields order bytes with _ | data
      · simp only [runBeacon, hd, hp] at hmem
        exact absurd hmem (renameOp_not_mem_pre name old new bytes.length)
      · rcases huo : uploadOps td resp data 0 with ⟨posts, st⟩
        cases st with
        | transportRaise =>
          simp only [runBeacon, hd, hp, huo] at hmem
          rcases List.mem_append.mp hmem with h2 | h2
          · exact absurd h2 (renameOp_not_mem_pre name old new bytes.length)
          · exact absurd h2 (renameOp_not_mem_posts posts old new)
        | rejected body =>
          simp only [runBeacon, hd, hp, huo] at hmem
          rcases List.mem_append.mp hmem with h2 | h2
          · rcases List.mem_append.mp h2 with h3 | h3
            · exact absurd h3 (renameOp_not_mem_pre name old new bytes.length)
            · exact absurd h3 (renameOp_not_mem_posts posts old new)
          · simp at h2
        | success =>
          simp only [runBeacon, hd, hp, huo] at hmem
          rcases List.mem_append.mp hmem with h2 | h2
          · rcases List.mem_append.mp h2 with h3 | h3
            · exact absurd h3 (renameOp_not_mem_pre name old new bytes.length)
            · exact absurd h3 (renameOp_not_mem_posts posts old new)
          · simp at h2
            exact h2
  · simp [on_created, hpfx]
  · intro hmem heq
    have h2 := (List.mem_filter.mp hmem).2
    rw [heq, hpfx] at h2
    simp at h2

/-- C4 witness: a concretely processed beacon emits exactly the rename
to its processed name, the processed name fails the beacon filter and
the handler ignores it, while the original name passes the bootstrap
filter and differs from the processed name. -/
theorem c4_witness :
    (FileOp.renameOp canonicalName (processedName canonicalName) ∈
      (runBeacon orderOne (fun _ => PostResult.resp true []) canonicalName [1, 0]).1) ∧
    (canonicalName = canonicalName ∧
      processedName canonicalName = processedName canonicalName) ∧
    hasBeaconPfx (processedName canonicalName) = false ∧
    on_created orderOne (fun _ => PostResult.resp true [])
      (processedName canonicalName) [1, 0] = ([], none) ∧
    ((canonicalName, ([1, 0] : List Byte)) ∈
      ([(canonicalName, [1, 0])] : List (List Char × List Byte)).filter
        (fun x => hasBeaconPfx x.1)) ∧
    (canonicalName, ([1, 0] : List Byte)).1 ≠ processedName canonicalName := by
  have h := c4_processed_never_reselected orderOne (fun _ => PostResult.resp true [])
    canonicalName [1, 0] canonicalName (processedName canonicalName)
    [(canonicalName, [1, 0])] (canonicalName, [1, 0])
  have hmem : FileOp.renameOp canonicalName (processedName canonicalName) ∈
      (runBeacon orderOne (fun _ => PostResult.resp true []) canonicalName [1, 0]).1 := by
    decide
  have hfil : (canonicalName, ([1, 0] : List Byte)) ∈
      ([(canonicalName, [1, 0])] : List (List Char × List Byte)).filter
        (fun x => hasBeaconPfx x.1) := by decide
  exact ⟨hmem, h.1 hmem, h.2.1, h.2.2.1, hfil, h.2.2.2 hfil⟩

/-- C5 counterexample: beacon_2021-1-19_14:30:00 deviates from the
strict zero-padded pattern the claim states, yet strptime parses it
(month alternative single digit), so it does not raise
MalformedFilename. -/
theorem c5_strict_pattern_cex :
    specStrictPattern oneDigitName = false ∧
    parseBeaconDate oneDigitName = some ⟨⟨2021, 1, 19, 14, 30, 0⟩, true⟩ :=
  ⟨by decide, by decide⟩

/-- C5 amended: parse_beacon parses the base name with strptime format
beacon_%Y-%m-%d_%H:%M:%S, whose compiled pattern demands a 4-digit year
but also accepts non-zero-padded month, day, hour, minute and second;
the canonical name parses to 2021-10-19T14:30:00 tagged UTC, a name
that does not match the strptime pattern such as beacon_bad-name raises
(MalformedFilename), and beacon_2021-2-3_4:5:6 is accepted. -/
theorem c5_amended :
    parseBeaconDate canonicalName = some ⟨⟨2021, 10, 19, 14, 30, 0⟩, true⟩ ∧
    specStrictPattern canonicalName = true ∧
    parseBeaconDate "beacon_bad-name".data = none ∧
    parseBeaconDate "beacon_2021-2-3_4:5:6".data = some ⟨⟨2021, 2, 3, 4, 5, 6⟩, true⟩ :=
  ⟨by decide, by decide, by decide, by decide⟩

/-- C6: check_database compares the remote record-source names and the
MeasurementSpec names as sets (membership-wise, so order-independent
and duplicate-collapsing); on any mismatch main raises before any
beacon file operation (the trace is empty), and on equality ingestion
proceeds to the bootstrap loop. -/
theorem c6_schema_check :
    ∀ (remote : List String) (order : List FieldSpec)
      (respFor : Nat → Nat → PostResult) (entries : List (List Char × List Byte)),
      (¬ (∀ x : String, x ∈ remote ↔ x ∈ expected_record_sources) →
        mainRun remote order respFor entries =
          ([], some (.schemaMismatch remote expected_record_sources))) ∧
      ((∀ x : String, x ∈ remote ↔ x ∈ expected_record_sources) →
        mainRun remote order respFor entries =
          mainLoop order respFor (entries.filter (fun e => hasBeaconPfx e.1)) 0) := by
  intro remote order respFor entries
  constructor
  · intro hne
    have hs : sameSet remote expected_record_sources = false := by
      cases hb : sameSet remote expected_record_sources with
      | false => rfl
      | true => exact absurd ((sameSet_iff _ _).mp hb) hne
    simp [mainRun, hs]
  · intro heq
    have hs : sameSet remote expected_record_sources = true := (sameSet_iff _ _).mpr heq
    simp [mainRun, hs]

/-- C6 witness: the spec's example remote set of two names makes main
raise the schema mismatch with an empty trace, and the full expected
set passes the check and hands over to the bootstrap loop. -/
theorem c6_witness :
    mainRun remoteBad BEACON_FORMAT_decl (fun _ _ => PostResult.resp true []) [] =
      ([], some (.schemaMismatch remoteBad expected_record_sources)) ∧
    mainRun expected_record_sources BEACON_FORMAT_decl
        (fun _ _ => PostResult.resp true []) [] =
      mainLoop BEACON_FORMAT_decl (fun _ _ => PostResult.resp true [])
        (([] : List (List Char × List Byte)).filter (fun e => hasBeaconPfx e.1)) 0 := by
  have h := c6_schema_check remoteBad BEACON_FORMAT_decl
    (fun _ _ => PostResult.resp true []) []
  have h2 := c6_schema_check expected_record_sources BEACON_FORMAT_decl
    (fun _ _ => PostResult.resp true []) []
  refine ⟨h.1 ?_, h2.2 (fun x => Iff.rfl)⟩
  intro hall
  exact absurd ((hall "system_time").mpr (by decide)) (by decide)

/-- C7 counterexample: a 0-byte beacon file logs the size anomaly and
attempts the decode, but the first unpack raises struct.error, which
escapes upload_beacon uncaught - contradicting the claim that the
attempt does not crash the program. -/
theorem c7_short_file_cex :
    (runBeacon BEACON_FORMAT_decl (fun _ => PostResult.resp true [])
      canonicalName []).2 = some (.structError canonicalName) ∧
    FileOp.logSizeAnomaly 0 ∈
      (runBeacon BEACON_FORMAT_decl (fun _ => PostResult.resp true [])
        canonicalName []).1 :=
  ⟨by decide, by decide⟩

/-- C7 amended: for any iteration order of the BEACON_FORMAT set and
any file whose length is not 74, parse_beacon logs the size anomaly and
still attempts the field-by-field decode; for longer files the decode
succeeds, but for shorter files it raises struct.error, which
propagates out of upload_beacon uncaught. -/
theorem c7_amended :
    ∀ (order : List FieldSpec) (name : List Char) (td : TaggedDateTime)
      (bytes : List Byte) (resp : Nat → PostResult),
      order.Perm BEACON_FORMAT_decl → parseBeaconDate name = some td →
      bytes.length ≠ 74 →
      FileOp.logSizeAnomaly bytes.length ∈ (runBeacon order resp name bytes).1 ∧
      (74 ≤ bytes.length → ∃ data, parseFields order bytes = some data) ∧
      (bytes.length < 74 →
        parseFields order bytes = none ∧
        (runBeacon order resp name bytes).2 = some (.structError name)) := by
  intro order name td bytes resp hperm hname hlen
  have hsizes := sizes_ok_perm order hperm
  have hw : totalWidth order = 74 := totalWidth_perm order hperm
  have hps := parseFields_size order bytes hsizes
  have hanom : FileOp.logSizeAnomaly bytes.length ∈ preOps name bytes.length := by
    simp [preOps, hlen]
  refine ⟨?_, ?_, ?_⟩
  · rcases hp : parseFields order bytes with _ | data
    · simp only [runBeacon, hname, hp]
      exact hanom
    · rcases huo : uploadOps td resp data 0 with ⟨posts, st⟩
      cases st with
      | transportRaise =>
        simp only [runBeacon, hname, hp, huo]
        exact List.mem_append_left _ hanom
      | rejected body =>
        simp only [runBeacon, hname, hp, huo]
        exact List.mem_append_left _ (List.mem_append_left _ hanom)
      | success =>
        simp only [runBeacon, hname, hp, huo]
        exact List.mem_append_left _ (List.mem_append_left _ hanom)
  · intro hge
    exact hps.1 (by omega)
  · intro hlt
    have hnone := hps.2 (by omega)
    exact ⟨hnone, by simp [runBeacon, hname, hnone]⟩

/-- C7 amended witness: the empty file under the declaration order
logs anomaly 0, fails the decode, and the struct.error escapes. -/
theorem c7_amended_witness :
    FileOp.logSizeAnomaly (([] : List Byte).length) ∈
      (runBeacon BEACON_FORMAT_decl (fun _ => PostResult.resp true [])
        canonicalName []).1 ∧
    parseFields BEACON_FORMAT_decl ([] : List Byte) = none ∧
    (runBeacon BEACON_FORMAT_decl (fun _ => PostResult.resp true [])
      canonicalName []).2 = some (.structError canonicalName) := by
  have h := c7_amended BEACON_FORMAT_decl canonicalName tdC []
    (fun _ => PostResult.resp true []) (List.Perm.refl _) (by decide) (by decide)
  exact ⟨h.1, (h.2.2 (by decide)).1, (h.2.2 (by decide)).2⟩

/-- C8 counterexample: with the same beacon and the failure at the same
request position, a rejection (non-ok response) and a transport error
produce different upload_beacon behaviour - the rejection writes
error.html and returns normally, while the transport error writes
nothing and escapes as an exception - refuting the claim that the two
propagate identically. -/
theorem c8_transport_vs_reject_cex :
    runBeacon orderOne respRejectAll canonicalName [1, 0] ≠
      runBeacon orderOne respRaiseAll canonicalName [1, 0] ∧
    (runBeacon orderOne respRejectAll canonicalName [1, 0]).2 = none ∧
    FileOp.writeErr [101] ∈ (runBeacon orderOne respRejectAll canonicalName [1, 0]).1 ∧
    (runBeacon orderOne respRaiseAll canonicalName [1, 0]).2 =
      some (.transport canonicalName) ∧
    (runBeacon orderOne respRaiseAll canonicalName [1, 0]).1 =
      [.read canonicalName, .logSizeAnomaly 2] :=
  ⟨by decide, by decide, by decide, by decide, by decide⟩

/-- C8 amended: a transport error on the k-th request propagates out of
upload_beacon as an uncaught exception with no diagnostic written and
no rename, whereas a non-success response on the same request is
handled inside upload_beacon: error.html is written and the function
returns normally; the two error kinds are distinguished. -/
theorem c8_amended :
    ∀ (order : List FieldSpec) (resp : Nat → PostResult) (name : List Char)
      (bytes : List Byte) (td : TaggedDateTime)
      (data : List (String × List Nat)) (k : Nat),
      parseBeaconDate name = some td → parseFields order bytes = some data →
      k < data.length → (∀ j, j < k → ∃ c, resp j = .resp true c) →
      (resp k = .raise →
        runBeacon order resp name bytes =
          (preOps name bytes.length ++ ((data.take k).map (mkRec td)).map FileOp.post,
           some (.transport name))) ∧
      (∀ body, resp k = .resp false body →
        runBeacon order resp name bytes =
          (preOps name bytes.length ++
            ((data.take (k + 1)).map (mkRec td)).map FileOp.post ++
            [.writeErr body], none)) := by
  intro order resp name bytes td data k hname hparse hk hok
  constructor
  · intro hraise
    have h := uploadOps_raise td resp data 0 k hk
      (fun j hj => by simpa using hok j hj) (by simpa using hraise)
    simp [runBeacon, hname, hparse, h]
  · intro body hbad
    have h := uploadOps_rej td resp data 0 (k + 1) body (by omega) (by omega)
      (fun j hj => by simpa using hok j (by omega))
      (by simpa using hbad)
    simp [runBeacon, hname, hparse, h]

/-- C8 amended witness: for a concrete one-field beacon, a transport
error on request 0 yields the transport crash with no error.html write,
and a rejection on request 0 yields the error.html write and a normal
return. -/
theorem c8_amended_witness :
    runBeacon orderOne respRaiseAll canonicalName [1, 0] =
      (preOps canonicalName (([1, 0] : List Byte).length) ++
        ((([("sync", [1])] : List (String × List Nat)).take 0).map (mkRec tdC)).map
          FileOp.post, some (.transport canonicalName)) ∧
    runBeacon orderOne respRejectAll canonicalName [1, 0] =
      (preOps canonicalName (([1, 0] : List Byte).length) ++
        ((([("sync", [1])] : List (String × List Nat)).take (0 + 1)).map (mkRec tdC)).map
          FileOp.post ++ [.writeErr [101]], none) := by
  have h1 := c8_amended orderOne respRaiseAll canonicalName [1, 0] tdC
    [("sync", [1])] 0 (by decide) (by decide) (by decide)
    (fun j hj => absurd hj (Nat.not_lt_zero j))
  have h2 := c8_amended orderOne respRejectAll canonicalName [1, 0] tdC
    [("sync", [1])] 0 (by decide) (by decide) (by decide)
    (fun j hj => absurd hj (Nat.not_lt_zero j))
  exact ⟨h1.1 rfl, h2.2 [101] rfl⟩

/-- C9 counterexample: a bootstrap scan over a 0-byte beacon followed
by a well-formed one terminates with the first beacon's uncaught
struct.error; the trace shows the second file was never touched,
refuting the claim that a decode failure is confined to one beacon and
the loop continues. -/
theorem c9_loop_termination_cex :
    mainRun expected_record_sources BEACON_FORMAT_decl
      (fun _ _ => PostResult.resp true [])
      [(canonicalName, []), (canonicalName2, demoBuf)] =
    ([.read canonicalName, .logSizeAnomaly 0], some (.structError canonicalName)) := by
  decide

/-- C9 amended: only beacons whose processing raises no exception
(success or remote rejection) are confined: the loop then continues
with the remaining files; when upload_beacon lets an exception escape
(malformed filename, struct.error, transport error), the bootstrap loop
terminates at that beacon. -/
theorem c9_amended :
    ∀ (order : List FieldSpec) (respFor : Nat → Nat → PostResult)
      (name : List Char) (bytes : List Byte)
      (rest : List (List Char × List Byte)) (k : Nat)
      (ops ops2 : List FileOp) (c2 : Option Crash) (cr : Crash),
      (runBeacon order (respFor k) name bytes = (ops, none) →
        mainLoop order respFor rest (k + 1) = (ops2, c2) →
        mainLoop order respFor ((name, bytes) :: rest) k = (ops ++ ops2, c2)) ∧
      (runBeacon order (respFor k) name bytes = (ops, some cr) →
        mainLoop order respFor ((name, bytes) :: rest) k = (ops, some cr)) := by
  intro order respFor name bytes rest k ops ops2 c2 cr
  constructor
  · intro h1 h2
    simp [mainLoop, h1, h2]
  · intro h1
    simp [mainLoop, h1]

/-- C9 amended witness: a rejected upload leaves no crash and the loop
step completes normally, while a 0-byte beacon's struct.error stops the
loop at that file. -/
theorem c9_amended_witness :
    mainLoop orderOne (fun _ _ => PostResult.resp false [101])
        [(canonicalName, [1, 0])] 0 =
      ([.read canonicalName, .logSizeAnomaly 2, .post (mkRec tdC ("sync", [1])),
        .writeErr [101]] ++ [], none) ∧
    mainLoop orderOne (fun _ _ => PostResult.resp true []) [(canonicalName, [])] 0 =
      ([.read canonicalName, .logSizeAnomaly 0], some (.structError canonicalName)) := by
  have h := c9_amended orderOne (fun _ _ => PostResult.resp false [101])
    canonicalName [1, 0] [] 0
    [.read canonicalName, .logSizeAnomaly 2, .post (mkRec tdC ("sync", [1])),
      .writeErr [101]] [] none (.structError canonicalName)
  have h2 := c9_amended orderOne (fun _ _ => PostResult.resp true [])
    canonicalName [] [] 0
    [.read canonicalName, .logSizeAnomaly 0] [] none (.structError canonicalName)
  exact ⟨h.1 (by decide) (by decide), h2.2 (by decide)⟩

/-- C10: every value stored in the decoded mapping is the 1-element
tuple produced by unpack (never an unwrapped scalar), and the POSTs
upload_beacon issues carry exactly those stored tuples as the value
form field (the requests are the per-field records in order, up to the
point the loop stopped). -/
theorem c10_tuple_values :
    ∀ (order : List FieldSpec) (bytes : List Byte) (data : List (String × List Nat)),
      parseFields order bytes = some data →
      (∀ p ∈ data, ∃ x, p.2 = [x]) ∧
      (∀ (td : TaggedDateTime) (resp : Nat → PostResult),
        ∃ k, (uploadOps td resp data 0).1 = (data.take k).map (mkRec td)) := by
  intro order bytes data h
  exact ⟨parseFields_singleton order bytes data h,
    fun td resp => uploadOps_take td resp data 0⟩

/-- C10 witness: the concrete decode of a 2-byte sync-only beacon
stores the singleton tuple and the issued request carries it. -/
theorem c10_witness :
    (∃ x, (("sync", ([1] : List Nat)) : String × List Nat).2 = [x]) ∧
    (∃ k, (uploadOps tdC (fun _ => PostResult.resp true []) [("sync", [1])] 0).1 =
      (([("sync", [1])] : List (String × List Nat)).take k).map (mkRec tdC)) := by
  have h := c10_tuple_values orderOne [1, 0] [("sync", [1])] (by decide)
  exact ⟨h.1 ("sync", [1]) (by decide), h.2 tdC (fun _ => PostResult.resp true [])⟩
